import Mathlib

/-!
Shallow embedding of the buffered log-delivery pipeline of
SourceRegistry/node-logger, and proofs of the specified properties.

The transports are single-threaded event-loop state machines; each is
modelled as a pure state type together with step functions for the
caller-invoked operations (`write`, `flush`, `close`) and for the timer /
I/O-completion callbacks that the Node event loop may interleave
(interval tick, idle timeout, network completion, backoff expiry,
worker failure, restart timer).  Side effects on the outside world
(stream writes, network attempts, worker messages, console reports,
stream terminations) are recorded inside the state as event lists or
counters, so that every observable of the source is a field of the
final state.
-/

namespace NodeLogger

/-- Modelled from the spec: the ordered severity enum
`TRACE<DEBUG<INFO<WARN<ERROR<FATAL` (the file `src/types/LogLevel.ts`
defining the enum is not part of the sources; only its ordering, which
the spec fixes, is used by the embedded code). -/
inductive LogLevel where
  | trace
  | debug
  | info
  | warn
  | error
  | fatal
deriving DecidableEq, Repr

/-- Numeric rank realising the spec's ordering of severities. -/
def LogLevel.toNat : LogLevel → Nat
  | .trace => 0
  | .debug => 1
  | .info => 2
  | .warn => 3
  | .error => 4
  | .fatal => 5

/-- `LogEntry` (src/types, part_001): only the fields the pipeline
inspects are kept; the remaining fields (timestamp, context, tags,
error) are consumed solely by the formatter, which the transports take
as an abstract function `LogEntry → String`. -/
structure LogEntry where
  level : LogLevel
  message : String
deriving DecidableEq, Repr

/-- `AutoFlushConfig` (src/types, printed with HTTPTransport.ts):
`none` models an absent optional field. -/
structure AutoFlushConfig where
  enabled : Bool
  interval : Option Nat
  onSize : Option Nat
  onLevel : Option LogLevel
  onIdle : Option Nat
deriving DecidableEq, Repr

/-- JavaScript truthiness of an optional numeric option:
absent or `0` is falsy. -/
def truthyPos : Option Nat → Bool
  | none => false
  | some n => decide (0 < n)

/-- The guard `cfg.onLevel && entry.level >= cfg.onLevel` of
`SmartFileTransport.write`.  Presence-based: the numeric values of the
`LogLevel` enum members are not in the sources, so the JS-truthiness of
a 0-valued member is not modelled; an absent `onLevel` never fires. -/
def levelTriggers (onLevel : Option LogLevel) (l : LogLevel) : Bool :=
  match onLevel with
  | none => false
  | some m => decide (m.toNat ≤ l.toNat)

/-- The guard `cfg.onSize && buffer.length >= cfg.onSize` of
`SmartFileTransport.write` (`some 0` is falsy in JS). -/
def sizeTriggers (onSize : Option Nat) (len : Nat) : Bool :=
  match onSize with
  | none => false
  | some n => decide (0 < n) && decide (n ≤ len)

namespace SmartFileTransport

/-- State of one `SmartFileTransport` instance.  `flushes` records, in
order, the drained snapshot of every flush that reached the write
stream; `streamEnds` counts calls of `writeStream.end`. -/
structure State where
  buffer : List String
  isClosing : Bool
  intervalArmed : Bool
  idleArmed : Bool
  flushes : List (List String)
  streamEnds : Nat
deriving DecidableEq, Repr

/-- Constructor: timers are armed only under `autoFlush.enabled`
(`setupAutoFlush`), each additionally guarded by `option && option > 0`. -/
def init (cfg : AutoFlushConfig) : State :=
  { buffer := []
    isClosing := false
    intervalArmed := cfg.enabled && truthyPos cfg.interval
    idleArmed := cfg.enabled && truthyPos cfg.onIdle
    flushes := []
    streamEnds := 0 }

/-- `flush()`: no-op on an empty buffer, otherwise `splice(0)` the whole
buffer and write it as one chunk. -/
def flush (s : State) : State :=
  if s.buffer = [] then s
  else { s with buffer := [], flushes := s.flushes ++ [s.buffer] }

/-- `resetIdleTimer()`: clears any pending idle timer and re-arms it iff
`onIdle && onIdle > 0` — note it does not consult `enabled`. -/
def resetIdleTimer (cfg : AutoFlushConfig) (s : State) : State :=
  { s with idleArmed := truthyPos cfg.onIdle }

/-- `write(entry)`: reject below `minLevel` or when closing; otherwise
format, push, reset the idle timer, and flush once if the severity or
size condition holds (a single flush even when both hold). -/
def write (cfg : AutoFlushConfig) (fmt : LogEntry → String) (minLevel : LogLevel)
    (e : LogEntry) (s : State) : State :=
  if e.level.toNat < minLevel.toNat || s.isClosing then s
  else
    let s1 := resetIdleTimer cfg { s with buffer := s.buffer ++ [fmt e] }
    if levelTriggers cfg.onLevel e.level || sizeTriggers cfg.onSize s1.buffer.length
    then flush s1
    else s1

/-- The idle `setTimeout` callback firing (one-shot). -/
def idleFire (s : State) : State :=
  if s.idleArmed then flush { s with idleArmed := false } else s

/-- The interval `setInterval` callback firing (stays armed). -/
def intervalFire (s : State) : State :=
  if s.intervalArmed then flush s else s

/-- `close()`: mark closing, cancel both timers, final flush, then end
the stream — `writeStream.end` is called on every invocation. -/
def close (s : State) : State :=
  let s1 := flush { s with isClosing := true, intervalArmed := false, idleArmed := false }
  { s1 with streamEnds := s1.streamEnds + 1 }

/-- Fold `write` over a list of entries. -/
def writeAll (cfg : AutoFlushConfig) (fmt : LogEntry → String) (minLevel : LogLevel)
    (es : List LogEntry) (s : State) : State :=
  es.foldl (fun t e => write cfg fmt minLevel e t) s

/-- Everything the sink has accepted, in order: drained batches then the
live buffer. -/
def allRecords (s : State) : List String :=
  s.flushes.flatten ++ s.buffer

end SmartFileTransport

namespace BufferedFileTransport

/-- State of one `BufferedFileTransport` instance. -/
structure State where
  buffer : List String
  isClosing : Bool
  timerActive : Bool
  flushes : List (List String)
  streamEnds : Nat
deriving DecidableEq, Repr

/-- Constructor: the interval flush timer is always armed. -/
def init : State :=
  { buffer := [], isClosing := false, timerActive := true, flushes := [], streamEnds := 0 }

/-- `flush()`: no-op on empty buffer, else drain the whole buffer. -/
def flush (s : State) : State :=
  if s.buffer = [] then s
  else { s with buffer := [], flushes := s.flushes ++ [s.buffer] }

/-- `write(entry)`: reject below `minLevel` or when closing; push, then
flush when `buffer.length >= bufferSize`. -/
def write (fmt : LogEntry → String) (minLevel : LogLevel) (bufferSize : Nat)
    (e : LogEntry) (s : State) : State :=
  if e.level.toNat < minLevel.toNat || s.isClosing then s
  else
    let s1 := { s with buffer := s.buffer ++ [fmt e] }
    if bufferSize ≤ s1.buffer.length then flush s1 else s1

/-- `close()`: mark closing, cancel the timer, final flush, end the
stream — `writeStream.end` is called on every invocation. -/
def close (s : State) : State :=
  let s1 := flush { s with isClosing := true, timerActive := false }
  { s1 with streamEnds := s1.streamEnds + 1 }

end BufferedFileTransport

namespace HTTPTransport

/-- Configuration after the constructor's defaulting merge.  The fields
the delivery logic reads; `endpoint/method/headers/retryDelay` only
shape the request and the wall-clock delay, not the state machine. -/
structure Config where
  batchSize : Nat
  minLevel : LogLevel
  maxRetries : Nat
deriving DecidableEq, Repr

/-- `this.config.batchSize || 10`: a falsy (0) value falls back to 10. -/
def effBatchSize (cfg : Config) : Nat :=
  if cfg.batchSize = 0 then 10 else cfg.batchSize

/-- `this.config.maxRetries || 3`: a falsy (0) value falls back to 3. -/
def effMaxRetries (cfg : Config) : Nat :=
  if cfg.maxRetries = 0 then 3 else cfg.maxRetries

/-- One suspended `flush` task: its spliced batch, the `retryCount` of
the current `sendBatch` activation, whether it is awaiting the network
response (`sending = true`) or the backoff `setTimeout`, and a count of
the network attempts this task has started (history, not code state). -/
structure SendTask where
  batch : List LogEntry
  retryCount : Nat
  sending : Bool
  attemptsMade : Nat
deriving DecidableEq, Repr

/-- State of one `HTTPTransport` instance.  `tasks` is the list of
outstanding `flush` tasks (the source intends at most one; keeping a
list lets the model express violations).  `attempts` records the batch
of every network request ever started; `failReports` counts the
`console.error('HTTPTransport flush failed: ...')` calls. -/
structure State where
  queue : List LogEntry
  isFlushInProgress : Bool
  timerActive : Bool
  tasks : List SendTask
  attempts : List (List LogEntry)
  failReports : Nat
deriving DecidableEq, Repr

def init : State :=
  { queue := [], isFlushInProgress := false, timerActive := true,
    tasks := [], attempts := [], failReports := 0 }

/-- The synchronous prefix of `flush()` up to its first await: the
guard, setting `isFlushInProgress`, splicing the queue, and starting
the first network attempt of `sendBatch`. -/
def flushStart (s : State) : State :=
  if s.queue = [] ∨ s.isFlushInProgress = true then s
  else
    { s with queue := [], isFlushInProgress := true,
             tasks := s.tasks ++ [⟨s.queue, 0, true, 1⟩],
             attempts := s.attempts ++ [s.queue] }

/-- `write(entry)`: drop below `minLevel`, push, and fire-and-forget a
flush when the queue reaches the batch size and no flush is marked in
progress. -/
def write (cfg : Config) (e : LogEntry) (s : State) : State :=
  if e.level.toNat < cfg.minLevel.toNat then s
  else
    let s1 := { s with queue := s.queue ++ [e] }
    if effBatchSize cfg ≤ s1.queue.length ∧ s1.isFlushInProgress = false
    then flushStart s1
    else s1

/-- The constructor's `setInterval` callback: flush unless a flush is
marked in progress. -/
def timerFire (s : State) : State :=
  if s.timerActive = true ∧ s.isFlushInProgress = false then flushStart s else s

/-- The network request of task `i` completes (`ok` = 2xx).  On
success the task finishes and the `finally` clause clears the flag; on
failure with retry budget left, `sendBatch` awaits the backoff timer;
on final failure the error propagates to `flush`'s catch (one
`console.error`) and the `finally` clause clears the flag. -/
def netComplete (cfg : Config) (i : Nat) (ok : Bool) (s : State) : State :=
  match s.tasks.get? i with
  | none => s
  | some t =>
    if t.sending = false then s
    else if ok then
      { s with tasks := s.tasks.eraseIdx i, isFlushInProgress := false }
    else if t.retryCount < effMaxRetries cfg then
      { s with tasks := s.tasks.set i { t with sending := false } }
    else
      { s with tasks := s.tasks.eraseIdx i, isFlushInProgress := false,
               failReports := s.failReports + 1 }

/-- The backoff `setTimeout` of task `i` expires: `sendBatch` recurses
with `retryCount + 1` and starts the next network attempt. -/
def backoffDone (i : Nat) (s : State) : State :=
  match s.tasks.get? i with
  | none => s
  | some t =>
    if t.sending = true then s
    else
      { s with tasks := s.tasks.set i ⟨t.batch, t.retryCount + 1, true, t.attemptsMade + 1⟩,
               attempts := s.attempts ++ [t.batch] }

/-- The synchronous prefix of `close()`: cancel the interval timer,
force `isFlushInProgress := false`, and start the final flush. -/
def closeBegin (s : State) : State :=
  flushStart { s with timerActive := false, isFlushInProgress := false }

/-- Events the event loop can interleave on one transport instance. -/
inductive Event where
  | write (e : LogEntry)
  | timerFire
  | netComplete (i : Nat) (ok : Bool)
  | backoffDone (i : Nat)
  | closeBegin
deriving DecidableEq, Repr

def step (cfg : Config) (s : State) : Event → State
  | .write e => write cfg e s
  | .timerFire => timerFire s
  | .netComplete i ok => netComplete cfg i ok s
  | .backoffDone i => backoffDone i s
  | .closeBegin => closeBegin s

def run (cfg : Config) (s : State) (evs : List Event) : State :=
  evs.foldl (step cfg) s

/-- Single-flight shape of a state: at most one outstanding flush task,
and none at all while `isFlushInProgress` is clear. -/
def SingleFlight (s : State) : Prop :=
  s.tasks.length ≤ 1 ∧ (s.isFlushInProgress = false → s.tasks = [])

/-- Retry discipline of every outstanding task: the current `sendBatch`
activation is within the effective retry budget (strictly, while parked
in backoff, since the next attempt increments it), and the attempts this
task has started are exactly `retryCount + 1`. -/
def RetryBounded (cfg : Config) (s : State) : Prop :=
  ∀ t ∈ s.tasks,
    t.attemptsMade = t.retryCount + 1 ∧
    t.retryCount ≤ effMaxRetries cfg ∧
    (t.sending = false → t.retryCount < effMaxRetries cfg)

/-- A state with nothing buffered and nothing outstanding. -/
def Quiescent (s : State) : Prop :=
  s.queue = [] ∧ s.tasks = []

end HTTPTransport

namespace WorkerTransport

/-- State of one `WorkerTransport` instance (the circuit-breaker
variant).  `posted` records, in order, every `postMessage({type:'log'})`
payload across worker generations; `spawns` counts `new Worker(...)`
constructions; `circuitReports` counts the circuit-opened
`console.error` report; `pendingRestarts` counts scheduled
`setTimeout(startWorker, restartDelay)` callbacks not yet fired. -/
structure State where
  workerUp : Bool
  queue : List String
  restartCount : Nat
  circuitBroken : Bool
  pendingRestarts : Nat
  posted : List String
  spawns : Nat
  circuitReports : Nat
deriving DecidableEq, Repr

/-- `startWorker()`: refuse when the circuit is open; otherwise spawn a
worker, replay the whole queued backlog in order, and reset the restart
counter. -/
def startWorker (s : State) : State :=
  if s.circuitBroken then s
  else
    { s with workerUp := true, spawns := s.spawns + 1,
             posted := s.posted ++ s.queue, queue := [], restartCount := 0 }

/-- `handleWorkerFailure()`: drop the handle, bump the counter; past
`maxRestarts` open the circuit and report once, otherwise schedule a
restart after the fixed delay. -/
def handleWorkerFailure (maxRestarts : Nat) (s : State) : State :=
  let s1 := { s with workerUp := false, restartCount := s.restartCount + 1 }
  if maxRestarts < s1.restartCount then
    { s1 with circuitBroken := true, circuitReports := s1.circuitReports + 1 }
  else
    { s1 with pendingRestarts := s1.pendingRestarts + 1 }

/-- A scheduled restart `setTimeout` fires and calls `startWorker`. -/
def restartFire (s : State) : State :=
  if s.pendingRestarts = 0 then s
  else startWorker { s with pendingRestarts := s.pendingRestarts - 1 }

/-- `write(entry)`: drop below `minLevel`; post to a running worker,
else append to the replay queue. -/
def write (fmt : LogEntry → String) (minLevel : LogLevel) (e : LogEntry)
    (s : State) : State :=
  if e.level.toNat < minLevel.toNat then s
  else if s.workerUp then { s with posted := s.posted ++ [fmt e] }
  else { s with queue := s.queue ++ [fmt e] }

/-- Events: a failure callback firing (`error` listener or nonzero
`exit` listener invoking `handleWorkerFailure` — the listeners are
registered per worker instance, stay live after the handle is dropped,
and one crash can fire both, so the event is not conditioned on a
current worker), a pending restart timer firing, and a caller write. -/
inductive Event where
  | fail
  | restartTimer
  | write (e : LogEntry)
deriving DecidableEq, Repr

def step (maxRestarts : Nat) (fmt : LogEntry → String) (minLevel : LogLevel)
    (s : State) : Event → State
  | .fail => handleWorkerFailure maxRestarts s
  | .restartTimer => restartFire s
  | .write e => write fmt minLevel e s

def run (maxRestarts : Nat) (fmt : LogEntry → String) (minLevel : LogLevel)
    (s : State) (evs : List Event) : State :=
  evs.foldl (fun t ev => step maxRestarts fmt minLevel t ev) s

/-- Construction: spawn the first worker from the empty state. -/
def init : State :=
  startWorker
    { workerUp := false, queue := [], restartCount := 0, circuitBroken := false,
      pendingRestarts := 0, posted := [], spawns := 0, circuitReports := 0 }

end WorkerTransport

/-! Concrete instances used to evaluate the models on the inputs named
by the testable properties. -/

/-- A formatter for concrete runs (the transports treat the formatter as
an opaque `LogEntry → String`). -/
def fmtMsg : LogEntry → String := fun e => e.message

def entInfo : LogEntry := ⟨.info, "alpha"⟩

def entInfo2 : LogEntry := ⟨.info, "beta"⟩

def entError : LogEntry := ⟨.error, "boom"⟩

/-- The auto-flush configuration of the repository's test
`does not set up auto-flush if disabled`: every trigger present but the
engine disabled. -/
def cfgDisabled : AutoFlushConfig :=
  ⟨false, some 5000, some 50, some .error, some 10000⟩

/-- Engine disabled, only `onSize: 1` present. -/
def cfgSizeOne : AutoFlushConfig := ⟨false, none, some 1, none, none⟩

/-- HTTP config: `batchSize 1, minLevel TRACE, maxRetries 2`. -/
def cfgHttpOne : HTTPTransport.Config := ⟨1, .trace, 2⟩

/-- HTTP config with `maxRetries: 0` (falsy in JS). -/
def cfgHttpZero : HTTPTransport.Config := ⟨1, .trace, 0⟩

/-- HTTP config: `batchSize 2, minLevel INFO, maxRetries 2`. -/
def cfgHttpTwo : HTTPTransport.Config := ⟨2, .info, 2⟩

/-- A send is outstanding (one write filled the batch), a second record
is queued behind it, then `close()` begins. -/
def httpCloseRace : HTTPTransport.State :=
  HTTPTransport.run cfgHttpOne HTTPTransport.init
    [.write entInfo, .write entInfo2, .closeBegin]

/-- The same race one event earlier: the send started by the first
write is still outstanding when `close()` is about to begin. -/
def httpBeforeClose : HTTPTransport.State :=
  HTTPTransport.run cfgHttpOne HTTPTransport.init [.write entInfo, .write entInfo2]

/-- One batch, three consecutive failing sends under `maxRetries 2`. -/
def httpRetryTrace : HTTPTransport.State :=
  HTTPTransport.run cfgHttpOne HTTPTransport.init
    [.write entInfo, .netComplete 0 false, .backoffDone 0,
     .netComplete 0 false, .backoffDone 0, .netComplete 0 false]

/-- One batch under `maxRetries: 0`, failing until the budget is gone. -/
def httpZeroRetryTrace : HTTPTransport.State :=
  HTTPTransport.run cfgHttpZero HTTPTransport.init
    [.write entInfo, .netComplete 0 false, .backoffDone 0,
     .netComplete 0 false, .backoffDone 0, .netComplete 0 false,
     .backoffDone 0, .netComplete 0 false]

/-- A transport whose `close()` has begun, whose final flush's send has
completed, and whose returned promise has therefore resolved. -/
def httpClosedState : HTTPTransport.State :=
  HTTPTransport.run cfgHttpTwo HTTPTransport.init
    [.write entInfo, .closeBegin, .netComplete 0 true]

/-- Five failure events from construction, none of the scheduled
restart timers having fired yet: the restart counter sits at the
source's budget (`maxRestarts = 5`), circuit still closed.  Reachable,
e.g., as the error and exit callbacks of crashed worker instances. -/
def wsFailed5 : WorkerTransport.State :=
  WorkerTransport.run 5 fmtMsg .info WorkerTransport.init
    [.fail, .fail, .fail, .fail, .fail]

/-- One more failure event: the counter exceeds the budget, the
circuit opens and the transition is reported. -/
def wsOpened : WorkerTransport.State :=
  WorkerTransport.step 5 fmtMsg .info wsFailed5 .fail

/-- A worker-transport state with the worker down after one failure. -/
def wsDown : WorkerTransport.State :=
  { workerUp := false, queue := [], restartCount := 1, circuitBroken := false,
    pendingRestarts := 1, posted := [], spawns := 1, circuitReports := 0 }

/-- Severity trigger on ERROR, no other trigger present. -/
def cfgLevelErr : AutoFlushConfig := ⟨true, none, none, some .error, none⟩

/-- A smart-file sink holding one buffered record. -/
def smartBufState : SmartFileTransport.State :=
  { buffer := ["w0"], isClosing := false, intervalArmed := false,
    idleArmed := false, flushes := [], streamEnds := 0 }

/-- An HTTP sink holding one queued record with no flush in flight. -/
def httpQueuedState : HTTPTransport.State :=
  { queue := [entInfo], isFlushInProgress := false, timerActive := true,
    tasks := [], attempts := [], failReports := 0 }

/-! ### Lemmas about the local buffer sinks -/

/-- Any single `write` appends at most one drained batch: one flush per
write, never one per eligible condition. -/
theorem SmartFileTransport.write_flushes_length_le (cfg : AutoFlushConfig)
    (fmt : LogEntry → String) (ml : LogLevel) (e : LogEntry)
    (s : SmartFileTransport.State) :
    ((SmartFileTransport.write cfg fmt ml e s).flushes).length ≤ s.flushes.length + 1 := by
  unfold SmartFileTransport.write SmartFileTransport.resetIdleTimer SmartFileTransport.flush
  split
  · omega
  · dsimp only
    split
    · split <;> simp
    · simp

/-- `flush` never loses nor duplicates a record. -/
theorem SmartFileTransport.allRecords_flush (s : SmartFileTransport.State) :
    SmartFileTransport.allRecords (SmartFileTransport.flush s) =
      SmartFileTransport.allRecords s := by
  unfold SmartFileTransport.flush SmartFileTransport.allRecords
  split <;> simp

/-- An accepted `write` appends exactly its formatted record to the
sink's total content, whether or not it triggers a flush. -/
theorem SmartFileTransport.allRecords_write (cfg : AutoFlushConfig)
    (fmt : LogEntry → String) (ml : LogLevel) (e : LogEntry)
    (s : SmartFileTransport.State)
    (hmin : ml.toNat ≤ e.level.toNat) (hcl : s.isClosing = false) :
    SmartFileTransport.allRecords (SmartFileTransport.write cfg fmt ml e s) =
      SmartFileTransport.allRecords s ++ [fmt e] := by
  unfold SmartFileTransport.write SmartFileTransport.resetIdleTimer
  rw [if_neg (by simp [hcl, Nat.not_lt.mpr hmin])]
  have hrec : SmartFileTransport.allRecords
      { s with buffer := s.buffer ++ [fmt e], idleArmed := truthyPos cfg.onIdle } =
      SmartFileTransport.allRecords s ++ [fmt e] := by
    simp [SmartFileTransport.allRecords]
  dsimp only
  split
  · rw [SmartFileTransport.allRecords_flush, hrec]
  · rw [hrec]

/-- Writing a run of records that exactly fills the size trigger from a
non-full buffer drains everything in one flush at the last write. -/
theorem SmartFileTransport.writeAll_size_run (cfg : AutoFlushConfig)
    (fmt : LogEntry → String) (ml : LogLevel) (n : Nat)
    (hlevel : cfg.onLevel = none) (hsize : cfg.onSize = some n) :
    ∀ (es : List LogEntry) (s : SmartFileTransport.State), es ≠ [] →
      s.isClosing = false → s.buffer.length + es.length = n →
      (∀ e ∈ es, ml.toNat ≤ e.level.toNat) →
      SmartFileTransport.writeAll cfg fmt ml es s =
        { buffer := [], isClosing := false, intervalArmed := s.intervalArmed,
          idleArmed := truthyPos cfg.onIdle,
          flushes := s.flushes ++ [s.buffer ++ es.map fmt],
          streamEnds := s.streamEnds } := by
  intro es
  induction es with
  | nil => intro s hne; exact absurd rfl hne
  | cons e rest ih =>
    intro s _ hcl hlen hmin
    have hacc : ml.toNat ≤ e.level.toNat := hmin e (by simp)
    have hstep : SmartFileTransport.writeAll cfg fmt ml (e :: rest) s =
        SmartFileTransport.writeAll cfg fmt ml rest
          (SmartFileTransport.write cfg fmt ml e s) := rfl
    rw [hstep]
    have hwrite_shape : ∀ b : Bool,
        (levelTriggers cfg.onLevel e.level ||
          sizeTriggers cfg.onSize (s.buffer ++ [fmt e]).length) = b →
        SmartFileTransport.write cfg fmt ml e s =
          (if b then SmartFileTransport.flush
              { s with buffer := s.buffer ++ [fmt e], idleArmed := truthyPos cfg.onIdle }
            else { s with buffer := s.buffer ++ [fmt e], idleArmed := truthyPos cfg.onIdle }) := by
      intro b hb
      unfold SmartFileTransport.write SmartFileTransport.resetIdleTimer
      rw [if_neg (by simp [hcl, Nat.not_lt.mpr hacc])]
      dsimp only
      rw [hb]
    have hlen1 : s.buffer.length + (rest.length + 1) = n := by
      simpa using hlen
    by_cases hrest : rest = []
    case pos =>
      subst hrest
      have hsz : sizeTriggers cfg.onSize (s.buffer ++ [fmt e]).length = true := by
        rw [hsize]
        unfold sizeTriggers
        simp only [List.length_append, List.length_cons, List.length_nil]
        simp only [List.length_nil] at hlen1
        simp only [Bool.and_eq_true, decide_eq_true_eq]
        omega
      rw [hwrite_shape true (by rw [hsz, Bool.or_true])]
      rw [if_pos rfl]
      unfold SmartFileTransport.flush
      rw [if_neg (by simp)]
      simp [SmartFileTransport.writeAll, hcl]
    case neg =>
      have hrestlen : 0 < rest.length := List.length_pos.mpr hrest
      have hsz : sizeTriggers cfg.onSize (s.buffer ++ [fmt e]).length = false := by
        rw [hsize]
        unfold sizeTriggers
        simp only [List.length_append, List.length_cons, List.length_nil]
        simp only [Bool.and_eq_false_iff, decide_eq_false_iff_not]
        right
        omega
      have hlv : levelTriggers cfg.onLevel e.level = false := by
        rw [hlevel]; rfl
      rw [hwrite_shape false (by rw [hsz, hlv, Bool.or_false])]
      rw [if_neg (by simp)]
      rw [ih _ hrest (by simp [hcl]) (by simp; omega)
         (fun e2 he2 => hmin e2 (by simp [he2]))]
      simp [List.append_assoc]

/-! ### Claim theorems for the local buffer sinks -/

/-- C1: with `enabled=false` the constructor arms no timer, but
`write` still arms the idle timer and still evaluates the size and
severity conditions, so automatic flushes do fire: under the disabled
configuration of the repository's own test (`interval 5000, onSize 50,
onLevel ERROR, onIdle 10000`), one accepted INFO write arms the idle
timer and its expiry flushes the record; and with a disabled
configuration carrying `onSize: 1`, the write itself flushes
immediately.  This contradicts the claim (and the test
`does not set up auto-flush if disabled`, which asserts no flush ever
happens); records do not simply accumulate until `close`. -/
theorem c1_disabled_engine_still_flushes :
    (SmartFileTransport.init cfgDisabled).intervalArmed = false ∧
    (SmartFileTransport.init cfgDisabled).idleArmed = false ∧
    (SmartFileTransport.write cfgDisabled fmtMsg .info entInfo
        (SmartFileTransport.init cfgDisabled)).idleArmed = true ∧
    (SmartFileTransport.idleFire (SmartFileTransport.write cfgDisabled fmtMsg .info entInfo
        (SmartFileTransport.init cfgDisabled))).flushes = [["alpha"]] ∧
    (SmartFileTransport.write cfgSizeOne fmtMsg .info entInfo
        (SmartFileTransport.init cfgSizeOne)).flushes = [["alpha"]] :=
  ⟨rfl, rfl, rfl, rfl, rfl⟩

/-- C4: `close()` is not idempotent in resource terminations: each of
the two `close()` calls ends the write stream again, so the underlying
stream sees two termination calls, not one — for both
`BufferedFileTransport` and `SmartFileTransport`.  This contradicts the
claim and the repository's own tests (`close is idempotent` /
`close is safe to call multiple times`, asserting
`end` called exactly once). -/
theorem c4_double_close_ends_stream_twice :
    (BufferedFileTransport.close BufferedFileTransport.init).streamEnds = 1 ∧
    (BufferedFileTransport.close (BufferedFileTransport.close
        BufferedFileTransport.init)).streamEnds = 2 ∧
    (SmartFileTransport.close (SmartFileTransport.init cfgDisabled)).streamEnds = 1 ∧
    (SmartFileTransport.close (SmartFileTransport.close
        (SmartFileTransport.init cfgDisabled))).streamEnds = 2 :=
  ⟨rfl, rfl, rfl, rfl⟩

/-- C6: with only the size trigger active (`onSize = n > 0`, no
severity trigger), writing exactly `n` records at or above `minLevel`
into a fresh sink produces exactly one flush, containing exactly those
records' formatted strings in write order, and leaves the buffer
empty. -/
theorem c6_size_trigger_exactly_one_flush (cfg : AutoFlushConfig)
    (fmt : LogEntry → String) (ml : LogLevel) (es : List LogEntry) (n : Nat)
    (hlevel : cfg.onLevel = none) (hsize : cfg.onSize = some n) (hn : 0 < n)
    (hlen : es.length = n) (hmin : ∀ e ∈ es, ml.toNat ≤ e.level.toNat) :
    (SmartFileTransport.writeAll cfg fmt ml es (SmartFileTransport.init cfg)).flushes
        = [es.map fmt] ∧
    (SmartFileTransport.writeAll cfg fmt ml es (SmartFileTransport.init cfg)).buffer
        = [] := by
  have hne : es ≠ [] := by
    intro h
    rw [h] at hlen
    simp at hlen
    omega
  rw [SmartFileTransport.writeAll_size_run cfg fmt ml n hlevel hsize es
      (SmartFileTransport.init cfg) hne rfl (by simp [SmartFileTransport.init, hlen]) hmin]
  simp [SmartFileTransport.init]

/-- Witness for C6 at `onSize = 1` and one INFO record. -/
theorem c6_witness :
    (SmartFileTransport.writeAll cfgSizeOne fmtMsg .info [entInfo]
        (SmartFileTransport.init cfgSizeOne)).flushes = [["alpha"]] ∧
    (SmartFileTransport.writeAll cfgSizeOne fmtMsg .info [entInfo]
        (SmartFileTransport.init cfgSizeOne)).buffer = [] := by
  exact c6_size_trigger_exactly_one_flush cfgSizeOne fmtMsg .info [entInfo] 1
    rfl rfl (by decide) rfl (by decide)

/-- C7: an accepted record whose severity reaches `onLevel` causes an
immediate flush within the same `write` call, containing the whole
buffer including the new record; and any single `write` appends at most
one flush, however many conditions are simultaneously eligible. -/
theorem c7_severity_trigger_flushes_whole_buffer (cfg : AutoFlushConfig)
    (fmt : LogEntry → String) (ml : LogLevel) (e : LogEntry)
    (s : SmartFileTransport.State) (l : LogLevel)
    (hl : cfg.onLevel = some l) (hsev : l.toNat ≤ e.level.toNat)
    (hmin : ml.toNat ≤ e.level.toNat) (hcl : s.isClosing = false) :
    (SmartFileTransport.write cfg fmt ml e s).flushes
        = s.flushes ++ [s.buffer ++ [fmt e]] ∧
    (SmartFileTransport.write cfg fmt ml e s).buffer = [] ∧
    (∀ (cfg2 : AutoFlushConfig) (fmt2 : LogEntry → String) (ml2 : LogLevel)
       (e2 : LogEntry) (s2 : SmartFileTransport.State),
       ((SmartFileTransport.write cfg2 fmt2 ml2 e2 s2).flushes).length
           ≤ s2.flushes.length + 1) := by
  refine ⟨?_, ?_, fun cfg2 fmt2 ml2 e2 s2 =>
    SmartFileTransport.write_flushes_length_le cfg2 fmt2 ml2 e2 s2⟩ <;>
  · unfold SmartFileTransport.write SmartFileTransport.resetIdleTimer
    rw [if_neg (by simp [hcl, Nat.not_lt.mpr hmin])]
    dsimp only
    rw [if_pos (by simp [levelTriggers, hl, hsev])]
    unfold SmartFileTransport.flush
    rw [if_neg (by simp)]

/-- Witness for C7: an ERROR record written onto a one-record buffer
drains both records at once. -/
theorem c7_witness :
    (SmartFileTransport.write cfgLevelErr fmtMsg .info entError smartBufState).flushes
        = [["w0", "boom"]] ∧
    (SmartFileTransport.write cfgLevelErr fmtMsg .info entError smartBufState).buffer
        = [] := by
  have h := c7_severity_trigger_flushes_whole_buffer cfgLevelErr fmtMsg .info entError
    smartBufState .error rfl (by decide) (by decide) rfl
  exact ⟨h.1, h.2.1⟩

/-! ### Lemmas about the out-of-process channel -/

theorem WorkerTransport.step_fail (mx : Nat) (fmt : LogEntry → String)
    (ml : LogLevel) (s : WorkerTransport.State) :
    WorkerTransport.step mx fmt ml s .fail =
      WorkerTransport.handleWorkerFailure mx s := rfl

theorem WorkerTransport.step_restartTimer (mx : Nat) (fmt : LogEntry → String)
    (ml : LogLevel) (s : WorkerTransport.State) :
    WorkerTransport.step mx fmt ml s .restartTimer = WorkerTransport.restartFire s := rfl

theorem WorkerTransport.step_on_write (mx : Nat) (fmt : LogEntry → String)
    (ml : LogLevel) (s : WorkerTransport.State) (e : LogEntry) :
    WorkerTransport.step mx fmt ml s (.write e) = WorkerTransport.write fmt ml e s := rfl

/-- With the circuit open, `startWorker` refuses and changes nothing. -/
theorem WorkerTransport.startWorker_open (s : WorkerTransport.State)
    (hcb : s.circuitBroken = true) : WorkerTransport.startWorker s = s := by
  unfold WorkerTransport.startWorker
  rw [if_pos hcb]

/-- Once the circuit is open and no worker is running, no event spawns
a worker or flips the flag back.  (A further failure event does repeat
the circuit-opened report — the report count is deliberately not an
invariant here.) -/
theorem WorkerTransport.step_preserves_open (mx : Nat) (fmt : LogEntry → String)
    (ml : LogLevel) (s : WorkerTransport.State) (ev : WorkerTransport.Event)
    (hcb : s.circuitBroken = true) (hup : s.workerUp = false) :
    (WorkerTransport.step mx fmt ml s ev).circuitBroken = true ∧
    (WorkerTransport.step mx fmt ml s ev).workerUp = false ∧
    (WorkerTransport.step mx fmt ml s ev).spawns = s.spawns := by
  cases ev with
  | fail =>
    rw [WorkerTransport.step_fail]
    unfold WorkerTransport.handleWorkerFailure
    dsimp only
    split
    · exact ⟨rfl, rfl, rfl⟩
    · exact ⟨hcb, rfl, rfl⟩
  | restartTimer =>
    rw [WorkerTransport.step_restartTimer]
    unfold WorkerTransport.restartFire
    split
    · exact ⟨hcb, hup, rfl⟩
    · rw [WorkerTransport.startWorker_open _ (by simpa using hcb)]
      exact ⟨hcb, hup, rfl⟩
  | write e =>
    rw [WorkerTransport.step_on_write]
    unfold WorkerTransport.write
    split
    · exact ⟨hcb, hup, rfl⟩
    · rw [if_neg (by simp [hup])]
      exact ⟨hcb, hup, rfl⟩

/-- Trace version of `step_preserves_open`. -/
theorem WorkerTransport.run_preserves_open (mx : Nat) (fmt : LogEntry → String)
    (ml : LogLevel) :
    ∀ (evs : List WorkerTransport.Event) (s : WorkerTransport.State),
      s.circuitBroken = true → s.workerUp = false →
      (WorkerTransport.run mx fmt ml s evs).circuitBroken = true ∧
      (WorkerTransport.run mx fmt ml s evs).workerUp = false ∧
      (WorkerTransport.run mx fmt ml s evs).spawns = s.spawns := by
  intro evs
  induction evs with
  | nil => intro s hcb hup; exact ⟨hcb, hup, rfl⟩
  | cons ev rest ih =>
    intro s hcb hup
    have hstep := WorkerTransport.step_preserves_open mx fmt ml s ev hcb hup
    have hrest := ih (WorkerTransport.step mx fmt ml s ev) hstep.1 hstep.2.1
    exact ⟨hrest.1, hrest.2.1, hrest.2.2.trans hstep.2.2⟩

/-! ### Claim theorems for the out-of-process channel -/

/-- C2 counterexample: the circuit-open transition is not reported
exactly once.  The error/exit listeners are registered per worker
instance and call `handleWorkerFailure` unconditionally — they stay
live after the handle is dropped, and one crash fires both — so
failure events keep arriving, and every post-threshold failure event
re-enters the over-budget branch and prints the circuit-opened
`console.error` again: after six failure events from construction
(`maxRestarts = 5`) the report has been made once, after a seventh it
has been made twice, and the restart counter keeps inflating. -/
theorem c2_counterexample_repeated_report :
    wsOpened.circuitBroken = true ∧
    wsOpened.circuitReports = 1 ∧
    (WorkerTransport.step 5 fmtMsg .info wsOpened .fail).circuitReports = 2 ∧
    (WorkerTransport.step 5 fmtMsg .info wsOpened .fail).restartCount = 7 :=
  ⟨rfl, rfl, rfl, rfl⟩

/-- C2 amended: a failure event arriving with the restart counter at or
above the configured maximum drops the handle, opens the circuit,
reports it, and schedules no restart — but each such event repeats the
report, so it is not made exactly once.  From any circuit-open state
with no worker, no sequence of events ever spawns or restarts a worker
or closes the circuit again, and every accepted write appends its
formatted message to the replay queue. -/
theorem c2_amended_circuit_breaker (mx : Nat) (fmt : LogEntry → String)
    (ml : LogLevel) :
    (∀ s : WorkerTransport.State, mx < s.restartCount + 1 →
       WorkerTransport.step mx fmt ml s .fail =
         { s with workerUp := false, restartCount := s.restartCount + 1,
                  circuitBroken := true, circuitReports := s.circuitReports + 1 }) ∧
    (∀ (s : WorkerTransport.State) (evs : List WorkerTransport.Event),
       s.circuitBroken = true → s.workerUp = false →
       (WorkerTransport.run mx fmt ml s evs).circuitBroken = true ∧
       (WorkerTransport.run mx fmt ml s evs).workerUp = false ∧
       (WorkerTransport.run mx fmt ml s evs).spawns = s.spawns) ∧
    (∀ (s : WorkerTransport.State) (e : LogEntry),
       s.workerUp = false → ml.toNat ≤ e.level.toNat →
       WorkerTransport.step mx fmt ml s (.write e) =
         { s with queue := s.queue ++ [fmt e] }) := by
  refine ⟨?_, fun s evs hcb hup =>
    WorkerTransport.run_preserves_open mx fmt ml evs s hcb hup, ?_⟩
  · intro s hmax
    rw [WorkerTransport.step_fail]
    unfold WorkerTransport.handleWorkerFailure
    dsimp only
    rw [if_pos hmax]
  · intro s e hup hmin
    rw [WorkerTransport.step_on_write]
    unfold WorkerTransport.write
    rw [if_neg (Nat.not_lt.mpr hmin)]
    rw [if_neg (by simp [hup])]

/-- Witness for the amended C2, at states reached by running the model
from construction with the source's `maxRestarts = 5`: the sixth
failure event opens the circuit, and afterwards a restart timer and a
write spawn nothing and only grow the queue. -/
theorem c2_witness :
    WorkerTransport.step 5 fmtMsg .info wsFailed5 .fail =
      { wsFailed5 with workerUp := false, restartCount := 6,
                       circuitBroken := true, circuitReports := 1 } ∧
    (WorkerTransport.run 5 fmtMsg .info wsOpened [.restartTimer, .write entInfo]).spawns
        = wsOpened.spawns ∧
    (WorkerTransport.run 5 fmtMsg .info wsOpened [.restartTimer, .write entInfo]).circuitBroken
        = true ∧
    WorkerTransport.step 5 fmtMsg .info wsOpened (.write entInfo) =
      { wsOpened with queue := ["alpha"] } := by
  have h := c2_amended_circuit_breaker 5 fmtMsg .info
  exact ⟨h.1 wsFailed5 (by decide),
    (h.2.1 wsOpened [.restartTimer, .write entInfo] rfl rfl).2.2,
    (h.2.1 wsOpened [.restartTimer, .write entInfo] rfl rfl).1,
    h.2.2 wsOpened entInfo rfl (by decide)⟩

/-- C8: a message accepted while the worker is down goes to the replay
queue; a successful replacement spawn delivers the whole backlog, in
original order, to the new worker and resets the restart counter to
zero; any message accepted after the spawn is posted after the
backlog. -/
theorem c8_replay_queue_on_restart (fmt : LogEntry → String) (ml : LogLevel)
    (e : LogEntry) (s : WorkerTransport.State)
    (hdown : s.workerUp = false) (hcb : s.circuitBroken = false)
    (hmin : ml.toNat ≤ e.level.toNat) :
    (WorkerTransport.write fmt ml e s).queue = s.queue ++ [fmt e] ∧
    WorkerTransport.startWorker (WorkerTransport.write fmt ml e s) =
      { s with workerUp := true, queue := [], restartCount := 0,
               posted := s.posted ++ s.queue ++ [fmt e], spawns := s.spawns + 1 } ∧
    (∀ e2 : LogEntry, ml.toNat ≤ e2.level.toNat →
       (WorkerTransport.write fmt ml e2
           (WorkerTransport.startWorker (WorkerTransport.write fmt ml e s))).posted =
         s.posted ++ s.queue ++ [fmt e] ++ [fmt e2]) := by
  have hq : WorkerTransport.write fmt ml e s = { s with queue := s.queue ++ [fmt e] } := by
    unfold WorkerTransport.write
    rw [if_neg (Nat.not_lt.mpr hmin)]
    rw [if_neg (by simp [hdown])]
  have hsw : WorkerTransport.startWorker (WorkerTransport.write fmt ml e s) =
      { s with workerUp := true, queue := [], restartCount := 0,
               posted := s.posted ++ s.queue ++ [fmt e], spawns := s.spawns + 1 } := by
    rw [hq]
    unfold WorkerTransport.startWorker
    rw [if_neg (by simp [hcb])]
    simp [List.append_assoc]
  refine ⟨by rw [hq], hsw, fun e2 hmin2 => ?_⟩
  rw [hsw]
  unfold WorkerTransport.write
  rw [if_neg (Nat.not_lt.mpr hmin2)]
  rw [if_pos rfl]

/-- Witness for C8: one queued message is replayed to the replacement
worker before a newer message. -/
theorem c8_witness :
    (WorkerTransport.write fmtMsg .info entInfo wsDown).queue = ["alpha"] ∧
    WorkerTransport.startWorker (WorkerTransport.write fmtMsg .info entInfo wsDown) =
      { wsDown with workerUp := true, queue := [], restartCount := 0,
                    posted := ["alpha"], spawns := 2 } ∧
    (WorkerTransport.write fmtMsg .info entInfo2
        (WorkerTransport.startWorker
          (WorkerTransport.write fmtMsg .info entInfo wsDown))).posted =
      ["alpha", "beta"] := by
  have h := c8_replay_queue_on_restart fmtMsg .info entInfo wsDown rfl rfl (by decide)
  exact ⟨h.1, h.2.1, h.2.2 entInfo2 (by decide)⟩

/-! ### Lemmas about the remote batch sender -/

theorem HTTPTransport.step_write (cfg : HTTPTransport.Config)
    (s : HTTPTransport.State) (e : LogEntry) :
    HTTPTransport.step cfg s (.write e) = HTTPTransport.write cfg e s := rfl

theorem HTTPTransport.step_timerFire (cfg : HTTPTransport.Config)
    (s : HTTPTransport.State) :
    HTTPTransport.step cfg s .timerFire = HTTPTransport.timerFire s := rfl

theorem HTTPTransport.step_netComplete (cfg : HTTPTransport.Config)
    (s : HTTPTransport.State) (i : Nat) (ok : Bool) :
    HTTPTransport.step cfg s (.netComplete i ok) = HTTPTransport.netComplete cfg i ok s := rfl

theorem HTTPTransport.step_backoffDone (cfg : HTTPTransport.Config)
    (s : HTTPTransport.State) (i : Nat) :
    HTTPTransport.step cfg s (.backoffDone i) = HTTPTransport.backoffDone i s := rfl

theorem HTTPTransport.step_closeBegin (cfg : HTTPTransport.Config)
    (s : HTTPTransport.State) :
    HTTPTransport.step cfg s .closeBegin = HTTPTransport.closeBegin s := rfl

/-- Under the single-flight invariant, an index resolving to a task
pins the task list to that singleton. -/
theorem HTTPTransport.tasks_eq_singleton (s : HTTPTransport.State)
    (h : HTTPTransport.SingleFlight s) (i : Nat) (t : HTTPTransport.SendTask)
    (hg : s.tasks.get? i = some t) : s.tasks = [t] ∧ i = 0 := by
  obtain ⟨hlt, hget⟩ := List.get?_eq_some.mp hg
  have hle : s.tasks.length ≤ 1 := h.1
  have hlen : s.tasks.length = 1 := by omega
  obtain ⟨a, ha⟩ := List.length_eq_one.mp hlen
  have hi : i = 0 := by omega
  subst hi
  rw [ha] at hg
  simp at hg
  rw [ha, hg]
  exact ⟨rfl, rfl⟩

/-- Starting a flush preserves the single-flight shape. -/
theorem HTTPTransport.singleFlight_flushStart (s : HTTPTransport.State)
    (h : HTTPTransport.SingleFlight s) :
    HTTPTransport.SingleFlight (HTTPTransport.flushStart s) := by
  unfold HTTPTransport.flushStart
  split
  · exact h
  case isFalse hcond =>
    push_neg at hcond
    have htasks : s.tasks = [] := h.2 (by
      cases hfl : s.isFlushInProgress
      · rfl
      · exact absurd hfl hcond.2)
    refine ⟨by simp [htasks], fun hf => ?_⟩
    exact absurd hf (by simp)

/-- Every event other than `closeBegin` preserves the single-flight
shape: the source's own paths never start a second concurrent send. -/
theorem HTTPTransport.singleFlight_step (cfg : HTTPTransport.Config)
    (s : HTTPTransport.State) (ev : HTTPTransport.Event)
    (hev : ev ≠ HTTPTransport.Event.closeBegin)
    (h : HTTPTransport.SingleFlight s) :
    HTTPTransport.SingleFlight (HTTPTransport.step cfg s ev) := by
  cases ev with
  | closeBegin => exact absurd rfl hev
  | write e =>
    rw [HTTPTransport.step_write]
    unfold HTTPTransport.write
    split
    · exact h
    · dsimp only
      split
      · exact HTTPTransport.singleFlight_flushStart _ h
      · exact h
  | timerFire =>
    rw [HTTPTransport.step_timerFire]
    unfold HTTPTransport.timerFire
    split
    · exact HTTPTransport.singleFlight_flushStart _ h
    · exact h
  | netComplete i ok =>
    rw [HTTPTransport.step_netComplete]
    unfold HTTPTransport.netComplete
    split
    · exact h
    case h_2 t hg =>
      obtain ⟨hone, hi⟩ := HTTPTransport.tasks_eq_singleton s h i t hg
      subst hi
      have hflag : s.isFlushInProgress = true := by
        cases hfl : s.isFlushInProgress
        · exact absurd (h.2 hfl) (by simp [hone])
        · rfl
      split
      · exact h
      · split
        · refine ⟨by simp [hone], fun _ => by simp [hone]⟩
        · split
          · refine ⟨by simp [hone], fun hf => ?_⟩
            exact absurd (hflag ▸ hf) (by simp)
          · refine ⟨by simp [hone], fun _ => by simp [hone]⟩
  | backoffDone i =>
    rw [HTTPTransport.step_backoffDone]
    unfold HTTPTransport.backoffDone
    split
    · exact h
    case h_2 t hg =>
      obtain ⟨hone, hi⟩ := HTTPTransport.tasks_eq_singleton s h i t hg
      subst hi
      have hflag : s.isFlushInProgress = true := by
        cases hfl : s.isFlushInProgress
        · exact absurd (h.2 hfl) (by simp [hone])
        · rfl
      split
      · exact h
      · refine ⟨by simp [hone], fun hf => ?_⟩
        exact absurd (hflag ▸ hf) (by simp)

/-- Trace version of `singleFlight_step`, from the fresh transport. -/
theorem HTTPTransport.singleFlight_run (cfg : HTTPTransport.Config) :
    ∀ (evs : List HTTPTransport.Event) (s : HTTPTransport.State),
      (∀ ev ∈ evs, ev ≠ HTTPTransport.Event.closeBegin) →
      HTTPTransport.SingleFlight s →
      HTTPTransport.SingleFlight (HTTPTransport.run cfg s evs) := by
  intro evs
  induction evs with
  | nil => intro s _ h; exact h
  | cons ev rest ih =>
    intro s hno h
    exact ih (HTTPTransport.step cfg s ev)
      (fun e2 he2 => hno e2 (List.mem_cons_of_mem ev he2))
      (HTTPTransport.singleFlight_step cfg s ev (hno ev (List.mem_cons_self ev rest)) h)

/-- From a drained, idle transport, any event other than a write keeps
the attempt log and the failure reports unchanged: in particular no
further network attempt is ever made for an already-settled batch. -/
theorem HTTPTransport.quiescent_step (cfg : HTTPTransport.Config)
    (s : HTTPTransport.State) (ev : HTTPTransport.Event)
    (hev : ∀ e, ev ≠ HTTPTransport.Event.write e)
    (hq : HTTPTransport.Quiescent s) :
    (HTTPTransport.step cfg s ev).attempts = s.attempts ∧
    (HTTPTransport.step cfg s ev).failReports = s.failReports ∧
    HTTPTransport.Quiescent (HTTPTransport.step cfg s ev) := by
  obtain ⟨hqu, hts⟩ := hq
  cases ev with
  | write e => exact absurd rfl (hev e)
  | timerFire =>
    rw [HTTPTransport.step_timerFire]
    unfold HTTPTransport.timerFire
    split
    · unfold HTTPTransport.flushStart
      rw [if_pos (Or.inl hqu)]
      exact ⟨rfl, rfl, hqu, hts⟩
    · exact ⟨rfl, rfl, hqu, hts⟩
  | netComplete i ok =>
    rw [HTTPTransport.step_netComplete]
    unfold HTTPTransport.netComplete
    rw [hts]
    exact ⟨rfl, rfl, hqu, hts⟩
  | backoffDone i =>
    rw [HTTPTransport.step_backoffDone]
    unfold HTTPTransport.backoffDone
    rw [hts]
    exact ⟨rfl, rfl, hqu, hts⟩
  | closeBegin =>
    rw [HTTPTransport.step_closeBegin]
    unfold HTTPTransport.closeBegin HTTPTransport.flushStart
    rw [if_pos (Or.inl hqu)]
    exact ⟨rfl, rfl, hqu, hts⟩

/-- Trace version of `quiescent_step`. -/
theorem HTTPTransport.quiescent_run (cfg : HTTPTransport.Config) :
    ∀ (evs : List HTTPTransport.Event) (s : HTTPTransport.State),
      (∀ ev ∈ evs, ∀ e, ev ≠ HTTPTransport.Event.write e) →
      HTTPTransport.Quiescent s →
      (HTTPTransport.run cfg s evs).attempts = s.attempts ∧
      (HTTPTransport.run cfg s evs).failReports = s.failReports ∧
      HTTPTransport.Quiescent (HTTPTransport.run cfg s evs) := by
  intro evs
  induction evs with
  | nil => intro s _ hq; exact ⟨rfl, rfl, hq⟩
  | cons ev rest ih =>
    intro s hno hq
    have hstep := HTTPTransport.quiescent_step cfg s ev
      (hno ev (List.mem_cons_self ev rest)) hq
    have hrest := ih (HTTPTransport.step cfg s ev)
      (fun e2 he2 => hno e2 (List.mem_cons_of_mem ev he2)) hstep.2.2
    exact ⟨hrest.1.trans hstep.1, hrest.2.1.trans hstep.2.1, hrest.2.2⟩

/-- Starting a flush preserves the retry discipline: the new task
starts at `retryCount 0` with its first attempt counted. -/
theorem HTTPTransport.retryBounded_flushStart (cfg : HTTPTransport.Config)
    (s : HTTPTransport.State) (h : HTTPTransport.RetryBounded cfg s) :
    HTTPTransport.RetryBounded cfg (HTTPTransport.flushStart s) := by
  unfold HTTPTransport.flushStart
  split
  · exact h
  · intro t ht
    rcases List.mem_append.mp ht with h1 | h2
    · exact h t h1
    · have heq : t = ⟨s.queue, 0, true, 1⟩ := by simpa using h2
      subst heq
      exact ⟨rfl, Nat.zero_le _, fun hf => by cases hf⟩

/-- Every event preserves the retry discipline: a retry is queued only
while `retryCount < effMaxRetries`, and each backoff expiry advances
both counters together. -/
theorem HTTPTransport.retryBounded_step (cfg : HTTPTransport.Config)
    (s : HTTPTransport.State) (ev : HTTPTransport.Event)
    (h : HTTPTransport.RetryBounded cfg s) :
    HTTPTransport.RetryBounded cfg (HTTPTransport.step cfg s ev) := by
  cases ev with
  | write e =>
    rw [HTTPTransport.step_write]
    unfold HTTPTransport.write
    split
    · exact h
    · dsimp only
      split
      · exact HTTPTransport.retryBounded_flushStart cfg _ h
      · exact h
  | timerFire =>
    rw [HTTPTransport.step_timerFire]
    unfold HTTPTransport.timerFire
    split
    · exact HTTPTransport.retryBounded_flushStart cfg _ h
    · exact h
  | closeBegin =>
    rw [HTTPTransport.step_closeBegin]
    unfold HTTPTransport.closeBegin
    exact HTTPTransport.retryBounded_flushStart cfg _ h
  | netComplete i ok =>
    rw [HTTPTransport.step_netComplete]
    unfold HTTPTransport.netComplete
    split
    · exact h
    case h_2 t hg =>
      have hmem : t ∈ s.tasks := List.get?_mem hg
      split
      · exact h
      · split
        · exact fun t2 ht2 => h t2 (List.eraseIdx_subset _ _ ht2)
        · split
          case isTrue hlt =>
            intro t2 ht2
            rcases List.mem_or_eq_of_mem_set ht2 with hin | heq
            · exact h t2 hin
            · subst heq
              exact ⟨(h t hmem).1, (h t hmem).2.1, fun _ => hlt⟩
          · exact fun t2 ht2 => h t2 (List.eraseIdx_subset _ _ ht2)
  | backoffDone i =>
    rw [HTTPTransport.step_backoffDone]
    unfold HTTPTransport.backoffDone
    split
    · exact h
    case h_2 t hg =>
      have hmem : t ∈ s.tasks := List.get?_mem hg
      split
      · exact h
      case isFalse hsend =>
        have hsf : t.sending = false := by
          cases hs : t.sending
          · rfl
          · exact absurd hs hsend
        intro t2 ht2
        rcases List.mem_or_eq_of_mem_set ht2 with hin | heq
        · exact h t2 hin
        · subst heq
          have hb := h t hmem
          refine ⟨?_, ?_, fun hf => by cases hf⟩
          · show t.attemptsMade + 1 = t.retryCount + 1 + 1
            rw [hb.1]
          · show t.retryCount + 1 ≤ HTTPTransport.effMaxRetries cfg
            have hlt := hb.2.2 hsf
            omega

/-- Trace version of `retryBounded_step`, from the fresh transport. -/
theorem HTTPTransport.retryBounded_run (cfg : HTTPTransport.Config) :
    ∀ (evs : List HTTPTransport.Event) (s : HTTPTransport.State),
      HTTPTransport.RetryBounded cfg s →
      HTTPTransport.RetryBounded cfg (HTTPTransport.run cfg s evs) := by
  intro evs
  induction evs with
  | nil => intro s h; exact h
  | cons ev rest ih =>
    intro s h
    exact ih (HTTPTransport.step cfg s ev) (HTTPTransport.retryBounded_step cfg s ev h)

/-! ### Claim theorems for the remote batch sender -/

/-- C3 counterexample: with `batchSize 1`, one write starts a send;
while it is outstanding a second record queues behind it; `close()`
then clears `isFlushInProgress` and starts its final flush, leaving two
sends outstanding at once — a second concurrent send started after
`close()` began, against the claim. -/
theorem c3_counterexample_close_starts_second_send :
    httpBeforeClose.tasks.length = 1 ∧
    httpBeforeClose.isFlushInProgress = true ∧
    HTTPTransport.closeBegin httpBeforeClose = httpCloseRace ∧
    httpCloseRace.tasks.length = 2 ∧
    httpCloseRace.tasks.all (fun t => t.sending) = true :=
  ⟨rfl, rfl, rfl, rfl, rfl⟩

/-- C3 amended: `flush()` is a silent no-op on an empty queue or while
a flush is marked in progress, and along any event sequence that never
begins a `close()`, at most one send is ever outstanding; the
single-flight guarantee does not survive `closeBegin`, which resets the
in-progress flag before the final flush. -/
theorem c3_amended_single_flight :
    (∀ s : HTTPTransport.State,
       s.queue = [] ∨ s.isFlushInProgress = true →
       HTTPTransport.flushStart s = s) ∧
    (∀ (cfg : HTTPTransport.Config) (evs : List HTTPTransport.Event),
       (∀ ev ∈ evs, ev ≠ HTTPTransport.Event.closeBegin) →
       (HTTPTransport.run cfg HTTPTransport.init evs).tasks.length ≤ 1) := by
  constructor
  · intro s hs
    unfold HTTPTransport.flushStart
    rw [if_pos hs]
  · intro cfg evs hno
    exact (HTTPTransport.singleFlight_run cfg evs HTTPTransport.init hno
      ⟨by decide, fun _ => rfl⟩).1

/-- Witness for the amended C3. -/
theorem c3_witness :
    HTTPTransport.flushStart HTTPTransport.init = HTTPTransport.init ∧
    (HTTPTransport.run cfgHttpOne HTTPTransport.init
        [.write entInfo, .netComplete 0 true, .write entInfo2]).tasks.length ≤ 1 := by
  refine ⟨c3_amended_single_flight.1 HTTPTransport.init (Or.inl rfl),
    c3_amended_single_flight.2 cfgHttpOne
      [.write entInfo, .netComplete 0 true, .write entInfo2] ?_⟩
  intro ev hev
  simp only [List.mem_cons, List.not_mem_nil, or_false] at hev
  rcases hev with rfl | rfl | rfl <;> decide

/-- C5 counterexample: with the configured `maxRetries: 0` the guard
`retryCount < (maxRetries || 3)` falls back to the default 3, so a
single batch is attempted four times — more than the claimed
`maxRetries + 1 = 1` attempts. -/
theorem c5_counterexample_zero_retries_four_attempts :
    httpZeroRetryTrace.attempts = [[entInfo], [entInfo], [entInfo], [entInfo]] ∧
    ¬ (httpZeroRetryTrace.attempts.length ≤ cfgHttpZero.maxRetries + 1) :=
  ⟨rfl, by decide⟩

/-- C5 amended: with `maxRetries 2`, three consecutive failing sends of
one batch make exactly three attempts, report the failure exactly once,
and drop the batch (not re-queued); no event sequence without new
writes ever makes a fourth attempt or a second report; and in general
every task makes at most `effMaxRetries + 1` attempts, where the
effective cap is the configured `maxRetries` when nonzero and the
default 3 when it is zero (JS falsy fallback). -/
theorem c5_amended_retry_exhaustion :
    httpRetryTrace.attempts = [[entInfo], [entInfo], [entInfo]] ∧
    httpRetryTrace.failReports = 1 ∧
    httpRetryTrace.queue = [] ∧
    httpRetryTrace.tasks = [] ∧
    (∀ evs : List HTTPTransport.Event,
       (∀ ev ∈ evs, ∀ e, ev ≠ HTTPTransport.Event.write e) →
       (HTTPTransport.run cfgHttpOne httpRetryTrace evs).attempts
           = [[entInfo], [entInfo], [entInfo]] ∧
       (HTTPTransport.run cfgHttpOne httpRetryTrace evs).failReports = 1) ∧
    (∀ (cfg : HTTPTransport.Config) (evs : List HTTPTransport.Event),
       ∀ t ∈ (HTTPTransport.run cfg HTTPTransport.init evs).tasks,
         t.attemptsMade ≤ HTTPTransport.effMaxRetries cfg + 1) := by
  refine ⟨rfl, rfl, rfl, rfl, fun evs hno => ?_, fun cfg evs t ht => ?_⟩
  · have h := HTTPTransport.quiescent_run cfgHttpOne evs httpRetryTrace hno ⟨rfl, rfl⟩
    exact ⟨h.1.trans rfl, h.2.1.trans rfl⟩
  · have hinit : HTTPTransport.RetryBounded cfg HTTPTransport.init :=
      fun t2 ht2 => absurd ht2 (by simp [HTTPTransport.init])
    have hb := HTTPTransport.retryBounded_run cfg evs HTTPTransport.init hinit t ht
    have h1 := hb.1
    have h2 := hb.2.1
    omega

/-- Witness for the amended C5. -/
theorem c5_witness :
    (HTTPTransport.run cfgHttpOne httpRetryTrace
        [.timerFire, .netComplete 0 true, .closeBegin]).attempts
        = [[entInfo], [entInfo], [entInfo]] ∧
    (HTTPTransport.run cfgHttpOne httpRetryTrace
        [.timerFire, .netComplete 0 true, .closeBegin]).failReports = 1 ∧
    (∀ t ∈ (HTTPTransport.run cfgHttpOne HTTPTransport.init [.write entInfo]).tasks,
       t.attemptsMade ≤ HTTPTransport.effMaxRetries cfgHttpOne + 1) := by
  have hno : ∀ ev ∈ ([.timerFire, .netComplete 0 true,
      .closeBegin] : List HTTPTransport.Event),
      ∀ e, ev ≠ HTTPTransport.Event.write e := by
    intro ev hev e
    simp only [List.mem_cons, List.not_mem_nil, or_false] at hev
    rcases hev with rfl | rfl | rfl <;> exact fun h => by cases h
  exact ⟨(c5_amended_retry_exhaustion.2.2.2.2.1 _ hno).1,
    (c5_amended_retry_exhaustion.2.2.2.2.1 _ hno).2,
    c5_amended_retry_exhaustion.2.2.2.2.2 cfgHttpOne [.write entInfo]⟩

/-- C10: the sender keeps no closed state.  After a `close()` whose
final flush has completed (the returned promise resolved), a record at
`minLevel` is still enqueued, and when the queue reaches `batchSize`
the write itself starts a new network send; in general an accepted
write always either grows the queue or starts a send with the grown
queue as its batch — nothing ever rejects it for being closed. -/
theorem c10_write_after_close_accepted :
    httpClosedState.queue = [] ∧
    httpClosedState.tasks = [] ∧
    httpClosedState.isFlushInProgress = false ∧
    (HTTPTransport.write cfgHttpTwo entInfo httpClosedState).queue = [entInfo] ∧
    (HTTPTransport.run cfgHttpTwo httpClosedState
        [.write entInfo, .write entInfo2]).attempts
        = [[entInfo], [entInfo, entInfo2]] ∧
    (HTTPTransport.run cfgHttpTwo httpClosedState
        [.write entInfo, .write entInfo2]).tasks.length = 1 ∧
    (∀ (cfg : HTTPTransport.Config) (s : HTTPTransport.State) (e : LogEntry),
       cfg.minLevel.toNat ≤ e.level.toNat →
       (HTTPTransport.write cfg e s).queue = s.queue ++ [e] ∨
       (HTTPTransport.write cfg e s).tasks
           = s.tasks ++ [⟨s.queue ++ [e], 0, true, 1⟩]) := by
  refine ⟨rfl, rfl, rfl, rfl, rfl, rfl, fun cfg s e hmin => ?_⟩
  unfold HTTPTransport.write
  rw [if_neg (Nat.not_lt.mpr hmin)]
  dsimp only
  split
  case isTrue hcond =>
    right
    unfold HTTPTransport.flushStart
    rw [if_neg (by simp [hcond.2])]
  case isFalse => left; rfl

/-- Witness for C10's general conjunct. -/
theorem c10_witness :
    (HTTPTransport.write cfgHttpTwo entInfo HTTPTransport.init).queue
        = HTTPTransport.init.queue ++ [entInfo] ∨
    (HTTPTransport.write cfgHttpTwo entInfo HTTPTransport.init).tasks
        = HTTPTransport.init.tasks ++ [⟨HTTPTransport.init.queue ++ [entInfo], 0, true, 1⟩] :=
  c10_write_after_close_accepted.2.2.2.2.2.2 cfgHttpTwo HTTPTransport.init entInfo
    (by decide)

/-! ### The snapshot-atomicity claim -/

theorem SmartFileTransport.flush_isClosing (s : SmartFileTransport.State) :
    (SmartFileTransport.flush s).isClosing = s.isClosing := by
  unfold SmartFileTransport.flush
  split <;> rfl

/-- C9: a flush drains the whole buffer as one snapshot; a record
accepted right after the snapshot leaves the in-flight batch untouched
and is accounted exactly once, in the next generation.  Likewise for
the remote sender: starting a flush splices the whole queue into the
new task's batch, and a write arriving while that send is in flight
lands in the fresh queue without touching the in-flight batch. -/
theorem c9_flush_snapshot_atomic (cfg : AutoFlushConfig) (fmt : LogEntry → String)
    (ml : LogLevel) (e : LogEntry) (s : SmartFileTransport.State)
    (hb : s.buffer ≠ []) (hcl : s.isClosing = false) (hmin : ml.toNat ≤ e.level.toNat)
    (cfg2 : HTTPTransport.Config) (f : LogEntry) (t : HTTPTransport.State)
    (hq : t.queue ≠ []) (hf : t.isFlushInProgress = false)
    (hacc : cfg2.minLevel.toNat ≤ f.level.toNat) :
    (SmartFileTransport.flush s).flushes = s.flushes ++ [s.buffer] ∧
    (SmartFileTransport.flush s).buffer = [] ∧
    ((SmartFileTransport.write cfg fmt ml e (SmartFileTransport.flush s)).flushes).take
        (s.flushes.length + 1) = s.flushes ++ [s.buffer] ∧
    SmartFileTransport.allRecords
        (SmartFileTransport.write cfg fmt ml e (SmartFileTransport.flush s))
        = SmartFileTransport.allRecords s ++ [fmt e] ∧
    (HTTPTransport.flushStart t).queue = [] ∧
    (HTTPTransport.flushStart t).tasks = t.tasks ++ [⟨t.queue, 0, true, 1⟩] ∧
    HTTPTransport.write cfg2 f (HTTPTransport.flushStart t)
        = { HTTPTransport.flushStart t with queue := [f] } := by
  have hflush : SmartFileTransport.flush s =
      { s with buffer := [], flushes := s.flushes ++ [s.buffer] } := by
    unfold SmartFileTransport.flush
    rw [if_neg hb]
  have hfcl : (SmartFileTransport.flush s).isClosing = false :=
    (SmartFileTransport.flush_isClosing s).trans hcl
  have hF : (s.flushes ++ [s.buffer]).length = s.flushes.length + 1 := by simp
  refine ⟨by rw [hflush], by rw [hflush], ?_, ?_, ?_, ?_, ?_⟩
  · rw [hflush]
    unfold SmartFileTransport.write SmartFileTransport.resetIdleTimer
    rw [if_neg (by simp [hcl, Nat.not_lt.mpr hmin])]
    dsimp only
    split
    · unfold SmartFileTransport.flush
      rw [if_neg (by simp)]
      dsimp only
      rw [← hF, List.take_left]
    · dsimp only
      rw [← hF, List.take_length]
  · rw [SmartFileTransport.allRecords_write cfg fmt ml e (SmartFileTransport.flush s)
        hmin hfcl, SmartFileTransport.allRecords_flush]
  · unfold HTTPTransport.flushStart
    rw [if_neg (by simp [hq, hf])]
  · unfold HTTPTransport.flushStart
    rw [if_neg (by simp [hq, hf])]
  · have hfs : HTTPTransport.flushStart t =
        { t with queue := [], isFlushInProgress := true,
                 tasks := t.tasks ++ [⟨t.queue, 0, true, 1⟩],
                 attempts := t.attempts ++ [t.queue] } := by
      unfold HTTPTransport.flushStart
      rw [if_neg (by simp [hq, hf])]
    rw [hfs]
    unfold HTTPTransport.write
    rw [if_neg (Nat.not_lt.mpr hacc)]
    dsimp only
    rw [if_neg (by simp)]
    simp

/-- Witness for C9: one buffered record flushed, then a write; one
queued record spliced into a send, then a write. -/
theorem c9_witness :
    (SmartFileTransport.flush smartBufState).flushes = [["w0"]] ∧
    ((SmartFileTransport.write cfgDisabled fmtMsg .info entInfo
        (SmartFileTransport.flush smartBufState)).flushes).take 1 = [["w0"]] ∧
    SmartFileTransport.allRecords
        (SmartFileTransport.write cfgDisabled fmtMsg .info entInfo
          (SmartFileTransport.flush smartBufState)) = ["w0", "alpha"] ∧
    (HTTPTransport.flushStart httpQueuedState).tasks = [⟨[entInfo], 0, true, 1⟩] ∧
    HTTPTransport.write cfgHttpTwo entInfo2 (HTTPTransport.flushStart httpQueuedState)
        = { HTTPTransport.flushStart httpQueuedState with queue := [entInfo2] } := by
  have h := c9_flush_snapshot_atomic cfgDisabled fmtMsg .info entInfo smartBufState
    (by decide) rfl (by decide) cfgHttpTwo entInfo2 httpQueuedState
    (by decide) rfl (by decide)
  exact ⟨h.1, h.2.2.1, h.2.2.2.1, h.2.2.2.2.2.1, h.2.2.2.2.2.2⟩

end NodeLogger
